import Mathlib

/-!
# Verification of the SwanLab API client (`src/swanlab-api.ts`)

Shallow embedding of the `SwanLabApi` class.  Network effects are modelled by
explicit server oracles (functions from page / attempt / key to the response
the transport would deliver); JavaScript values that may be `undefined` or
`null` are modelled by the three-valued `JOpt`; loops whose termination
depends on the server are given explicit fuel, with `none` meaning "the loop
was still running after that many iterations".
-/

namespace SwanLab

/-- A JavaScript optional value: `undefined`, `null`, or a present value. -/
inductive JOpt (α : Type) : Type
  | undef
  | null
  | val (a : α)
deriving DecidableEq

/-- JS `x ?? d` producing a plain value (both `undefined` and `null` fall back). -/
def JOpt.nvl {α : Type} : JOpt α → α → α
  | .undef, d => d
  | .null, d => d
  | .val a, _ => a

/-- JS `x ?? null`. -/
def JOpt.orNull {α : Type} : JOpt α → JOpt α
  | .undef => .null
  | .null => .null
  | .val a => .val a

/-- JS `x ?? undefined`. -/
def JOpt.orUndef {α : Type} : JOpt α → JOpt α
  | .undef => .undef
  | .null => .undef
  | .val a => .val a

/-- JS `x || ""` on a string-or-missing value.  (A present empty string is
falsy in JS and also falls back, yielding `""` either way.) -/
def jsOrEmpty : JOpt String → String
  | .val s => s
  | _ => ""

/-- JS `x || 0` on a number-or-missing value (naturals only here; a present
`0` is falsy in JS and falls back, yielding `0` either way). -/
def jsOrZero : JOpt Nat → Nat
  | .val n => n
  | _ => 0

/-- JS `Boolean(x)` restricted to boolean-or-missing payloads. -/
def jsBoolean : JOpt Bool → Bool
  | .val b => b
  | _ => false

/-- JS `Array.isArray(x) ? x : []` restricted to array-or-missing payloads. -/
def jsArrayOr {α : Type} : JOpt (List α) → List α
  | .val l => l
  | _ => []

/-- Truthiness of `response.data.errmsg`-style fields: a present, non-empty
string is truthy; `undefined`, `null` and `""` are falsy. -/
def jsTruthyStr : JOpt String → Bool
  | .val s => s != ""
  | _ => false

/-! ## CSV cell coercion (`getMetrics`, swanlab-api.ts lines 726-745) -/

/-- A JS number as produced by `Number(string)` on a numeric input: a
finite value (modelled as the exact rational the literal denotes —
float64 rounding is not modelled) or one of the two infinities. -/
inductive JsNum : Type
  | fin (q : ℚ)
  | posInf
  | negInf
deriving DecidableEq

/-- JS unary minus on a number. -/
def JsNum.neg : JsNum → JsNum
  | .fin q => .fin (-q)
  | .posInf => .negInf
  | .negInf => .posInf

/-- The value stored into a parsed CSV row: the code produces `null`, a
number, a string, or (for a missing cell) the JS `undefined` value. -/
inductive CellVal : Type
  | null
  | num (x : JsNum)
  | str (s : String)
  | undef
deriving DecidableEq

/-- Decimal value of a digit list (used by the `Number(value)` model). -/
def digitsVal (cs : List Char) : Nat :=
  cs.foldl (fun n c => 10 * n + (c.toNat - 48)) 0

/-- Rational value of `ip.fp` (integer and fraction digit lists). -/
def decOfParts (ip fp : List Char) : ℚ :=
  (digitsVal ip : ℚ) + (digitsVal fp : ℚ) / ((10 : ℚ) ^ fp.length)

/-- The digits of an exponent part, after the `e`/`E` and an optional
sign: one or more decimal digits. -/
def expDigits (ds : List Char) : Option Int :=
  if ds ≠ [] ∧ ds.all Char.isDigit then some (Int.ofNat (digitsVal ds)) else none

/-- The optionally signed digits of an exponent part. -/
def expSign : List Char → Option Int
  | '+' :: ds => expDigits ds
  | '-' :: ds => (expDigits ds).map (fun n => -n)
  | ds => expDigits ds

/-- An exponent part `e`/`E`, optional sign, digits; anything else is not a
numeric literal. -/
def expVal : List Char → Option Int
  | 'e' :: rest => expSign rest
  | 'E' :: rest => expSign rest
  | _ => none

/-- Unsigned decimal literal of JS `Number()`: digits, optionally a point
and more digits, optionally an exponent part (`DecimalDigits . DecimalDigits
ExponentPart`, with at least one digit around the point).  `none` models
`NaN`. -/
def parseStrUnsignedDecimal (cs : List Char) : Option ℚ :=
  let ip := cs.takeWhile Char.isDigit
  match cs.dropWhile Char.isDigit with
  | [] => if ip.isEmpty then none else some (digitsVal ip : ℚ)
  | '.' :: r2 =>
    let fp := r2.takeWhile Char.isDigit
    if ip.isEmpty ∧ fp.isEmpty then none
    else
      match r2.dropWhile Char.isDigit with
      | [] => some (decOfParts ip fp)
      | r3 => (expVal r3).map (fun e => decOfParts ip fp * (10 : ℚ) ^ e)
  | rest =>
    if ip.isEmpty then none
    else (expVal rest).map (fun e => (digitsVal ip : ℚ) * (10 : ℚ) ^ e)

/-- Hexadecimal digit test. -/
def isHexDigitCh (c : Char) : Bool :=
  c.isDigit || ('a' ≤ c && c ≤ 'f') || ('A' ≤ c && c ≤ 'F')

/-- Hexadecimal digit value. -/
def hexDigitVal (c : Char) : Nat :=
  if c.isDigit then c.toNat - 48
  else if 'a' ≤ c && c ≤ 'f' then c.toNat - 87
  else c.toNat - 55

/-- A non-decimal integer literal body: one or more digits of the given
base. -/
def radixVal (base : Nat) (val : Char → Nat) (ok : Char → Bool) (ds : List Char) : Option Nat :=
  if ds ≠ [] ∧ ds.all ok then some (ds.foldl (fun n c => base * n + val c) 0) else none

/-- The signable part of a JS `Number()` string: `Infinity` or a decimal
literal (non-decimal radix literals do not admit a sign). -/
def jsNumberSignless (cs : List Char) : Option JsNum :=
  if cs = ['I', 'n', 'f', 'i', 'n', 'i', 't', 'y'] then some .posInf
  else (parseStrUnsignedDecimal cs).map JsNum.fin

/-- Model of JS `Number(s)` on numeric-literal strings: the empty string is
`0`; an optional sign followed by `Infinity` or a decimal literal with
optional fraction and exponent; unsigned `0x`/`0X` hexadecimal, `0o`/`0O`
octal and `0b`/`0B` binary integer literals.  `none` models `NaN`.  Values
are the exact rationals denoted (float64 rounding is not modelled). -/
def jsNumber (s : String) : Option JsNum :=
  match s.data with
  | [] => some (.fin 0)
  | '+' :: cs => jsNumberSignless cs
  | '-' :: cs => (jsNumberSignless cs).map JsNum.neg
  | '0' :: c :: rest =>
    if c = 'x' ∨ c = 'X' then
      (radixVal 16 hexDigitVal isHexDigitCh rest).map (fun n => .fin n)
    else if c = 'o' ∨ c = 'O' then
      (radixVal 8 (fun d => d.toNat - 48) (fun d => '0' ≤ d && d ≤ '7') rest).map
        (fun n => .fin n)
    else if c = 'b' ∨ c = 'B' then
      (radixVal 2 (fun d => d.toNat - 48) (fun d => d == '0' || d == '1') rest).map
        (fun n => .fin n)
    else jsNumberSignless ('0' :: c :: rest)
  | cs => jsNumberSignless cs

/-- Coercion applied to one (already trimmed) CSV cell, swanlab-api.ts line
739: `(value === '' || value === 'null' || value === 'undefined') ? null :
isNaN(Number(value)) ? value : Number(value)`.  The argument is `none` when
the data line has no cell at this column (`values[j]` is `undefined`): none
of the string comparisons match and `Number(undefined)` is `NaN`, so the
`undefined` value itself is stored. -/
def coerceCell : Option String → CellVal
  | none => .undef
  | some value =>
    if value = "" ∨ value = "null" ∨ value = "undefined" then .null
    else
      match jsNumber value with
      | some q => .num q
      | none => .str value

/-- JS `String.prototype.split(sep)` on a single-character separator,
character-list form.  Splitting the empty text yields one empty group, and a
trailing separator yields a trailing empty group, as in JS. -/
def splitOnChar (sep : Char) : List Char → List (List Char)
  | [] => [[]]
  | c :: rest =>
    match splitOnChar sep rest with
    | [] => [[]]
    | g :: gs => if c = sep then [] :: g :: gs else (c :: g) :: gs

/-- JS `s.split(sep)` for a single-character separator. -/
def jsSplit (sep : Char) (s : String) : List String :=
  (splitOnChar sep s.data).map (fun cs => String.mk cs)

/-- Whitespace stripped by JS `trim()` (the fragment relevant here). -/
def isWsChar (c : Char) : Bool :=
  c == ' ' || c == '\t' || c == '\n' || c == '\r'

/-- JS `s.trim()`: strip whitespace from both ends. -/
def jsTrim (s : String) : String :=
  String.mk (((s.data.dropWhile isWsChar).reverse.dropWhile isWsChar).reverse)

/-- A parsed CSV row: a JS object, i.e. an insertion-ordered association list
with unique keys. -/
abbrev Row := List (String × CellVal)

/-- JS object property assignment `row[k] = v`: replaces the value in place
if the key exists, otherwise appends the new property. -/
def jset : Row → String → CellVal → Row
  | [], k, v => [(k, v)]
  | (k0, v0) :: rest, k, v =>
    if k0 = k then (k, v) :: rest else (k0, v0) :: jset rest k v

/-- The inner loop of the row builder (swanlab-api.ts lines 734-742): for
each header index `j`, assign `row[headers[j]] = coerce(values[j])`. -/
def mkRowAux (cells : List String) : List String → Nat → Row → Row
  | [], _, row => row
  | h :: hs, j, row => mkRowAux cells hs (j + 1) (jset row h (coerceCell (cells.get? j)))

/-- One data row mapped header-by-header. -/
def mkRow (headers cells : List String) : Row :=
  mkRowAux cells headers 0 []

/-- CSV parsing in `getMetrics` (swanlab-api.ts lines 719-745): trim the
payload, split on newlines, require at least two lines, take the first line
as the (comma-split, trimmed) header row and map every further line to a
row.  `none` models the `continue` that skips the key. -/
def parseCsvText (csvData : String) : Option (List Row) :=
  match jsSplit '\n' (jsTrim csvData) with
  | l0 :: l1 :: rest =>
    let headers := (jsSplit ',' l0).map (fun h => jsTrim h)
    some ((l1 :: rest).map (fun ln => mkRow headers ((jsSplit ',' ln).map (fun v => jsTrim v))))
  | _ => none

/-! ## Metrics fetching (`getMetrics`, swanlab-api.ts lines 669-761) -/

/-- The export-descriptor response body for one key: possibly an `errmsg`
field, possibly a download `url`. -/
structure ColumnResp where
  errmsg : JOpt String
  url : JOpt String

/-- Per-key behaviour of the outside world: the column-descriptor request
(`.error` = the request threw; `.ok .undef` / `.ok .null` = empty
`response.data`) and the CSV download by URL. -/
structure KeyServer where
  column : Except String (JOpt ColumnResp)
  csv : String → Except String String

/-- Processing of one key inside the `for` loop of `getMetrics`: every
failure path (`continue` in the source) yields `none`. -/
def processKey (ks : KeyServer) : Option (List Row) :=
  match ks.column with
  | .error _ => none
  | .ok .undef => none
  | .ok .null => none
  | .ok (.val d) =>
    if jsTruthyStr d.errmsg then none
    else
      match d.url with
      | .val url =>
        if url = "" then none
        else
          match ks.csv url with
          | .error _ => none
          | .ok csvData => parseCsvText csvData
      | _ => none

/-- The `keys` parameter of `getMetrics`: a single string or an array. -/
inductive KeysArg : Type
  | one (k : String)
  | many (ks : List String)

/-- `Array.isArray(keys) ? keys : [keys]`. -/
def toKeysArray : KeysArg → List String
  | .one k => [k]
  | .many l => l

/-- Insertion into a JS `Set`, element by element: an element already seen is
skipped, a new one is appended and remembered. -/
def dedupFirstAux (seen : List String) : List String → List String
  | [] => []
  | a :: l => if a ∈ seen then dedupFirstAux seen l else a :: dedupFirstAux (a :: seen) l

/-- `[...new Set(keysArray)]`: deduplication keeping the first occurrence of
each key, in order. -/
def dedupFirst (l : List String) : List String :=
  dedupFirstAux [] l

/-- `getMetrics` after login: deduplicate the keys and accumulate
`metricsData[key] = dataRows` for every key whose processing succeeds,
silently skipping the others. -/
def getMetrics (server : String → KeyServer) (keys : KeysArg) : List (String × List Row) :=
  (dedupFirst (toKeysArray keys)).filterMap
    (fun k => (processKey (server k)).map (fun rows => (k, rows)))

/-! ## Paginated listing (`listProjects` / `listExperiments`,
swanlab-api.ts lines 370-432 and 466-510) -/

/-- One page response: the page's items and the server-reported total
(the code reads `response.data?.total || 0` on every page). -/
structure PageResp (α : Type) where
  list : List α
  total : Nat

/-- The shared `while (true)` pagination loop: fetch page `page`, append the
(per-item translated) items, stop when the page is empty or the accumulated
count has reached the reported total, otherwise continue with `page + 1`.
Returns the accumulated list and the last page requested; `none` means the
loop was still running when the fuel ran out. -/
def paginateLoop {α β : Type} (server : Nat → PageResp α) (g : α → β) :
    Nat → Nat → List β → Option (List β × Nat)
  | 0, _, _ => none
  | fuel + 1, page, acc =>
    let r := server page
    let acc2 := acc ++ r.list.map g
    if r.list.length = 0 ∨ r.total ≤ acc2.length then some (acc2, page)
    else paginateLoop server g fuel (page + 1) acc2

/-- Raw project-list group subobject (all fields may be missing upstream). -/
structure RawGroup where
  type : JOpt String
  username : JOpt String
  name : JOpt String

/-- Raw `_count` subobject of a project-list entry. -/
structure RawCount where
  experiments : JOpt Nat
  contributors : JOpt Nat
  children : JOpt Nat
  collaborators : JOpt Nat
  runningExps : JOpt Nat

/-- Raw project-list entry as delivered by the server. -/
structure RawProjectItem where
  cuid : JOpt String
  name : JOpt String
  description : JOpt String
  visibility : JOpt String
  createdAt : JOpt String
  updatedAt : JOpt String
  group : JOpt RawGroup
  uCount : JOpt RawCount

/-- Normalized project group. -/
structure ProjectGroup where
  type : String
  username : String
  name : String
deriving DecidableEq

/-- Normalized project counters. -/
structure ProjectCount where
  experiments : Nat
  contributors : Nat
  children : Nat
  collaborators : Nat
  runningExps : Nat
deriving DecidableEq

/-- Normalized `Project` record returned by `listProjects`. -/
structure Project where
  cuid : String
  name : String
  description : String
  visibility : String
  createdAt : String
  updatedAt : String
  group : ProjectGroup
  count : Option ProjectCount
deriving DecidableEq

/-- Per-item normalization in `listProjects` (swanlab-api.ts lines 396-415):
`item.x || ""` on strings, `item.group?.x || ""`, and the counters only when
`item._count` is present (here `uCount`, since `_count` is the source name). -/
def parseProject (item : RawProjectItem) : Project :=
  { cuid := jsOrEmpty item.cuid
  , name := jsOrEmpty item.name
  , description := jsOrEmpty item.description
  , visibility := jsOrEmpty item.visibility
  , createdAt := jsOrEmpty item.createdAt
  , updatedAt := jsOrEmpty item.updatedAt
  , group :=
      match item.group with
      | .val g => ⟨jsOrEmpty g.type, jsOrEmpty g.username, jsOrEmpty g.name⟩
      | _ => ⟨"", "", ""⟩
  , count :=
      match item.uCount with
      | .val c => some ⟨jsOrZero c.experiments, jsOrZero c.contributors,
          jsOrZero c.children, jsOrZero c.collaborators, jsOrZero c.runningExps⟩
      | _ => none }

/-- `listProjects` after login: the pagination loop with per-item parsing. -/
def listProjects (server : Nat → PageResp RawProjectItem) (fuel : Nat) :
    Option (List Project × Nat) :=
  paginateLoop server parseProject fuel 1 []

/-- `listExperiments` after login: the same pagination loop, pushing the raw
experiment entries unchanged. -/
def listExperiments {α : Type} (server : Nat → PageResp α) (fuel : Nat) :
    Option (List α × Nat) :=
  paginateLoop server id fuel 1 []

/-- An honest paginated server: page `p` (1-based) serves the `p`-th chunk of
ten items of a fixed collection and reports the collection's length as
`total`. -/
def chunkServer {α : Type} (l : List α) : Nat → PageResp α :=
  fun page => ⟨(l.drop ((page - 1) * 10)).take 10, l.length⟩

/-! ## Summary composition (`getSummary`, swanlab-api.ts lines 583-660) -/

/-- Raw `min`/`max` subobject of a summaries entry: `{index, data}`. -/
structure RawMinMax where
  index : ℚ
  data : ℚ
deriving DecidableEq

/-- Raw per-metric summaries entry: `{step, value, min, max}` with the
min/max subobjects possibly absent (the code reads them with `?.`). -/
structure RawSummaryItem where
  step : ℚ
  value : ℚ
  min : Option RawMinMax
  max : Option RawMinMax
deriving DecidableEq

/-- Projected min/max: `{step, value}`; a field is `none` (JS `undefined`)
when the raw subobject was absent. -/
structure MinMaxOut where
  step : Option ℚ
  value : Option ℚ
deriving DecidableEq

/-- One entry of the returned `Summary`. -/
structure SummaryItem where
  step : ℚ
  value : ℚ
  min : MinMaxOut
  max : MinMaxOut
deriving DecidableEq

/-- The per-metric projection of `getSummary` (swanlab-api.ts lines 639-653):
`{step, value, min:{index,data}, max:{index,data}}` becomes
`{step, value, min:{step,value}, max:{step,value}}`. -/
def projectSummaryItem (v : RawSummaryItem) : SummaryItem :=
  ⟨v.step, v.value,
   ⟨v.min.map RawMinMax.index, v.min.map RawMinMax.data⟩,
   ⟨v.max.map RawMinMax.index, v.max.map RawMinMax.data⟩⟩

/-- Tail stage of `getSummary` on the summaries POST body (lines 634-653),
with the body modelled as the batch-keyed object (a key-ordered association
list of per-metric maps).  `handleApiResponse` first throws when
`response.data.errmsg` is truthy (a present object field is truthy); its
`code` range check cannot fire on this body shape, since a missing or
non-numeric `code` fails both JS comparisons.  Then the first keyed entry's
value is taken as the raw map; on an empty body `Object.entries(undefined)`
throws a `TypeError`. -/
def getSummaryFromBody (body : List (String × List (String × RawSummaryItem))) :
    Except String (List (String × SummaryItem)) :=
  if (body.lookup "errmsg").isSome then .error "errmsg"
  else
    match body with
    | [] => .error "TypeError"
    | (_, raw) :: _ => .ok (raw.map (fun kv => (kv.1, projectSummaryItem kv.2)))

/-- The lineage fields of the experiment-lookup response used by
`getSummary` (lines 610-611 read them as `... || ""`). -/
structure ExpLookup where
  rootExpId : JOpt String
  rootProId : JOpt String

/-- The summaries POST body element; `none` root fields are absent from the
serialized object. -/
structure SummariesRequest where
  experimentId : String
  projectId : String
  rootExperimentId : Option String
  rootProjectId : Option String
deriving DecidableEq

/-- Construction of the summaries request (swanlab-api.ts lines 610-625):
`rootExpId`/`rootProId` default to `""`; the two root fields are added
exactly when both are truthy (non-empty). -/
def summariesRequestOf (expId projectCuid : String) (d : ExpLookup) : SummariesRequest :=
  let rootExpId := jsOrEmpty d.rootExpId
  let rootProId := jsOrEmpty d.rootProId
  if rootExpId ≠ "" ∧ rootProId ≠ "" then
    ⟨expId, projectCuid, some rootExpId, some rootProId⟩
  else
    ⟨expId, projectCuid, none, none⟩

/-! ## Response interceptor (constructor, swanlab-api.ts lines 258-282) -/

/-- An Axios error as seen by the interceptor: the optional HTTP status and
status text of `error.response`, the transport message, and whether
`error.config` is available for a retry. -/
structure AxiosErrM where
  status : Option Nat
  statusText : Option String
  message : String
  hasConfig : Bool
deriving DecidableEq

/-- `handleAxiosError` (swanlab-api.ts lines 9-24) restricted to Axios
errors, which is the only kind the interceptor passes it: 401 and 403 map to
the fixed authentication messages, any other status to
`"{status} {statusText || 'Unknown error'}"`, and a missing status to a
network error built from the transport message. -/
def handleAxiosError (e : AxiosErrM) : String :=
  match e.status with
  | some s =>
    if s = 401 then "Authentication failed. Please check your API key."
    else if s = 403 then "You need to be verified first"
    else toString s ++ " " ++ e.statusText.getD "Unknown error"
  | none => "Network error: " ++ e.message

/-- Outcome of one transport round trip for the intercepted request. -/
inductive HttpOutcome (ρ : Type) : Type
  | ok (r : ρ)
  | err (e : AxiosErrM)

/-- The response interceptor's error path, unfolded over successive attempts
of the same request.  `reqServer n` is the transport outcome of the `n`-th
issue of the request and `loginServer n` the outcome of the `n`-th re-login.
On a 401 (the `isLoggingIn` guard is false here: `login()` clears the flag
in its `finally` before the retry is issued) the client re-logs-in; a failed
login throws `handleAxiosError` of the ORIGINAL error; a successful login
re-issues the request through the same interceptor, which is the recursive
call.  `none` means the interceptor was still re-issuing requests when the
fuel ran out. -/
def requestWithRetry {ρ : Type} (reqServer : Nat → HttpOutcome ρ)
    (loginServer : Nat → Except AxiosErrM String) :
    Nat → Nat → Nat → Option (Except String ρ)
  | 0, _, _ => none
  | fuel + 1, attempt, logins =>
    match reqServer attempt with
    | .ok r => some (.ok r)
    | .err e =>
      if e.status = some 401 then
        match loginServer logins with
        | .error _ => some (.error (handleAxiosError e))
        | .ok _ =>
          if e.hasConfig then requestWithRetry reqServer loginServer fuel (attempt + 1) (logins + 1)
          else some (.error (handleAxiosError e))
      else some (.error (handleAxiosError e))

/-- A transport on which every issue of the request fails with HTTP 401 and
`error.config` present. -/
def persistent401 (ρ : Type) : Nat → HttpOutcome ρ :=
  fun _ => .err ⟨some 401, some "Unauthorized", "Request failed with status code 401", true⟩

/-- A login endpoint that always succeeds. -/
def loginAlwaysOk : Nat → Except AxiosErrM String :=
  fun _ => .ok "sid"

/-! ## `getExperiment` normalization (swanlab-api.ts lines 520-573) -/

/-- Raw `user` subobject of an experiment payload. -/
structure RawUser where
  username : JOpt String
  name : JOpt String
  avatar : JOpt String

/-- Raw `profile` subobject of an experiment payload. -/
structure RawProfile where
  config : JOpt (List (String × String))
  metadata : JOpt (List (String × String))
  requirements : JOpt String
  conda : JOpt String

/-- One `sectionIndex` entry. -/
structure SectionIndexItem where
  id : String
  name : String
  index : Int
deriving DecidableEq

/-- Raw experiment payload for `getExperiment`: every field may be missing.
`showFlag` is the source's `show` field. -/
structure RawExperiment where
  cuid : JOpt String
  name : JOpt String
  description : JOpt String
  state : JOpt String
  showFlag : JOpt Bool
  createdAt : JOpt String
  finishedAt : JOpt String
  user : JOpt RawUser
  profile : JOpt RawProfile
  type : JOpt String
  colors : JOpt (List String)
  labels : JOpt (List String)
  tags : JOpt (List String)
  sectionIndex : JOpt (List SectionIndexItem)
  cloneType : JOpt String
  rootExpId : JOpt String
  rootProId : JOpt String

/-- Normalized experiment user subobject; `avatar` keeps its JS
optionality (`?? undefined`). -/
structure ExperimentUser where
  username : String
  name : String
  avatar : JOpt String
deriving DecidableEq

/-- Normalized experiment profile subobject; `requirements` is
`?? undefined`, `conda` is `?? null`. -/
structure ExperimentProfile where
  config : List (String × String)
  metadata : List (String × String)
  requirements : JOpt String
  conda : JOpt String
deriving DecidableEq

/-- Normalized `Experiment` record returned by `getExperiment`; `showFlag`
is the source's `show` field. -/
structure Experiment where
  cuid : String
  name : String
  description : String
  state : String
  showFlag : Bool
  createdAt : String
  finishedAt : JOpt String
  user : ExperimentUser
  profile : ExperimentProfile
  type : String
  colors : List String
  labels : List String
  tags : List String
  sectionIndex : List SectionIndexItem
  cloneType : JOpt String
  rootExpId : JOpt String
  rootProId : JOpt String
deriving DecidableEq

/-- The field-by-field normalization of `getExperiment` (lines 539-566):
`?? ""` / `?? null` / `?? undefined` defaults, `Boolean(data.show)`,
`Array.isArray` guards, and optional chaining through `user` and
`profile`. -/
def getExperimentParse (data : RawExperiment) : Experiment :=
  { cuid := data.cuid.nvl ""
  , name := data.name.nvl ""
  , description := data.description.nvl ""
  , state := data.state.nvl ""
  , showFlag := jsBoolean data.showFlag
  , createdAt := data.createdAt.nvl ""
  , finishedAt := data.finishedAt.orNull
  , user :=
      match data.user with
      | .val u => ⟨u.username.nvl "", u.name.nvl "", u.avatar.orUndef⟩
      | _ => ⟨"", "", .undef⟩
  , profile :=
      match data.profile with
      | .val p => ⟨p.config.nvl [], p.metadata.nvl [], p.requirements.orUndef, p.conda.orNull⟩
      | _ => ⟨[], [], .undef, .null⟩
  , type := data.type.nvl ""
  , colors := jsArrayOr data.colors
  , labels := jsArrayOr data.labels
  , tags := jsArrayOr data.tags
  , sectionIndex := jsArrayOr data.sectionIndex
  , cloneType := data.cloneType.orNull
  , rootExpId := data.rootExpId.orNull
  , rootProId := data.rootProId.orNull }

/-- A raw experiment payload with every field absent (used as a concrete
input below). -/
def emptyRawExperiment : RawExperiment :=
  ⟨.undef, .undef, .undef, .undef, .undef, .undef, .undef, .undef, .undef,
   .undef, .undef, .undef, .undef, .undef, .undef, .undef, .undef⟩

/-- A concrete non-empty raw experiment payload whose optional
`user.avatar`, `profile.requirements`, `profile.conda` and `colors` are
absent upstream. -/
def sampleRawExperiment : RawExperiment :=
  { cuid := .val "exp1"
  , name := .val "run"
  , description := .undef
  , state := .val "FINISHED"
  , showFlag := .val true
  , createdAt := .val "2024-01-01"
  , finishedAt := .null
  , user := .val ⟨.val "u1", .val "User One", .undef⟩
  , profile := .val ⟨.undef, .undef, .undef, .undef⟩
  , type := .undef
  , colors := .undef
  , labels := .undef
  , tags := .undef
  , sectionIndex := .undef
  , cloneType := .null
  , rootExpId := .null
  , rootProId := .null }

/-- A concrete metrics backend: key `"b"`'s export-descriptor request
throws, every other key resolves to a URL serving a two-line CSV. -/
def sampleMetricsServer : String → KeyServer := fun k =>
  if k = "b" then ⟨.error "request failed", fun _ => .error "unused"⟩
  else ⟨.ok (.val ⟨.undef, .val "https://example/export.csv"⟩),
        fun _ => .ok "step,loss\n1,2"⟩

/-- A raw project-list entry with every field absent (used as a concrete
input below). -/
def emptyRawProjectItem : RawProjectItem :=
  ⟨.undef, .undef, .undef, .undef, .undef, .undef, .undef, .undef⟩

/-! ## Theorems -/

/-- Claim C5: the coercion applied by `getMetrics` to every trimmed CSV cell
maps the literal empty string, the literal text `"null"` and the literal
text `"undefined"` to null; maps any value parseable as a number to that
number; and leaves any other value as the original string.  In particular
`""`, `"null"`, `"undefined"`, `"3.5"`, `"abc"` coerce to null, null, null,
`3.5`, `"abc"`; exponent notation, hexadecimal literals and `Infinity` are
numbers too, as in JS `Number()`. -/
theorem coerceCell_coercion_rule :
    coerceCell (some "") = CellVal.null ∧
    coerceCell (some "null") = CellVal.null ∧
    coerceCell (some "undefined") = CellVal.null ∧
    coerceCell (some "3.5") = CellVal.num (.fin (7 / 2)) ∧
    coerceCell (some "abc") = CellVal.str "abc" ∧
    coerceCell (some "1e3") = CellVal.num (.fin 1000) ∧
    coerceCell (some "1e-5") = CellVal.num (.fin (1 / 100000)) ∧
    coerceCell (some "0x1A") = CellVal.num (.fin 26) ∧
    coerceCell (some "Infinity") = CellVal.num .posInf ∧
    coerceCell (some "-Infinity") = CellVal.num .negInf ∧
    (∀ s : String, s ≠ "" → s ≠ "null" → s ≠ "undefined" →
      (∀ x : JsNum, jsNumber s = some x → coerceCell (some s) = CellVal.num x) ∧
      (jsNumber s = none → coerceCell (some s) = CellVal.str s)) := by
  have h35 : coerceCell (some "3.5") = CellVal.num (.fin (decOfParts ['3'] ['5'])) := rfl
  have hval35 : decOfParts ['3'] ['5'] = 7 / 2 := by
    rw [decOfParts, show digitsVal ['3'] = 3 from by decide,
      show digitsVal ['5'] = 5 from by decide]
    norm_num
  have he3 : coerceCell (some "1e3") =
      CellVal.num (.fin ((digitsVal ['1'] : ℚ) * (10 : ℚ) ^ (Int.ofNat (digitsVal ['3'])))) := rfl
  have hval3 : (digitsVal ['1'] : ℚ) * (10 : ℚ) ^ (Int.ofNat (digitsVal ['3'])) = 1000 := by
    rw [show digitsVal ['1'] = 1 from by decide, show digitsVal ['3'] = 3 from by decide]
    norm_num
  have hem5 : coerceCell (some "1e-5") =
      CellVal.num (.fin ((digitsVal ['1'] : ℚ) * (10 : ℚ) ^ (-(Int.ofNat (digitsVal ['5']))))) := rfl
  have hval5 : (digitsVal ['1'] : ℚ) * (10 : ℚ) ^ (-(Int.ofNat (digitsVal ['5']))) = 1 / 100000 := by
    rw [show digitsVal ['1'] = 1 from by decide, show digitsVal ['5'] = 5 from by decide]
    norm_num
  refine ⟨by decide, by decide, by decide, by rw [h35, hval35], by decide,
    by rw [he3, hval3], by rw [hem5, hval5], by decide, by decide, by decide, ?_⟩
  intro s h1 h2 h3
  have hcond : ¬(s = "" ∨ s = "null" ∨ s = "undefined") := by simp [h1, h2, h3]
  constructor
  · intro x hx
    simp [coerceCell, hcond, hx]
  · intro hx
    simp [coerceCell, hcond, hx]

/-- Witness for C5 at the concrete cell `"xy"`. -/
theorem coerceCell_coercion_rule_witness :
    coerceCell (some "xy") = CellVal.str "xy" :=
  (coerceCell_coercion_rule.2.2.2.2.2.2.2.2.2.2 "xy"
    (by decide) (by decide) (by decide)).2 (by decide)

/-- Claim C6: the summaries POST body includes `rootExperimentId` and
`rootProjectId` exactly when the experiment lookup reports both `rootExpId`
and `rootProId` non-empty; otherwise the body consists only of
`{experimentId, projectId}` (both root fields absent). -/
theorem getSummary_clone_augmentation :
    ∀ (e p : String) (d : ExpLookup),
      (summariesRequestOf e p d).experimentId = e ∧
      (summariesRequestOf e p d).projectId = p ∧
      (jsOrEmpty d.rootExpId ≠ "" ∧ jsOrEmpty d.rootProId ≠ "" →
        (summariesRequestOf e p d).rootExperimentId = some (jsOrEmpty d.rootExpId) ∧
        (summariesRequestOf e p d).rootProjectId = some (jsOrEmpty d.rootProId)) ∧
      (¬(jsOrEmpty d.rootExpId ≠ "" ∧ jsOrEmpty d.rootProId ≠ "") →
        summariesRequestOf e p d = ⟨e, p, none, none⟩) := by
  intro e p d
  by_cases h : jsOrEmpty d.rootExpId ≠ "" ∧ jsOrEmpty d.rootProId ≠ ""
  · simp [summariesRequestOf, h]
  · simp [summariesRequestOf, h]

/-- Witness for C6: one clone lookup (both roots present) and one non-clone
lookup (one root null). -/
theorem getSummary_clone_augmentation_witness :
    (summariesRequestOf "e1" "p1" ⟨.val "r1", .val "r2"⟩).rootExperimentId = some "r1" ∧
    summariesRequestOf "e1" "p1" ⟨.val "r1", .null⟩ = ⟨"e1", "p1", none, none⟩ :=
  ⟨((getSummary_clone_augmentation "e1" "p1" ⟨.val "r1", .val "r2"⟩).2.2.1 (by decide)).1,
   (getSummary_clone_augmentation "e1" "p1" ⟨.val "r1", .null⟩).2.2.2 (by decide)⟩

/-- Claim C8: when a call fails with HTTP 401 and the automatic re-login
also fails, the error surfaced to the caller is `handleAxiosError` of the
ORIGINAL 401 error (the fixed authentication-failure message), independent
of what the re-login's own error was. -/
theorem interceptor_login_failure_original_error :
    ∀ (ρ : Type) (reqServer : Nat → HttpOutcome ρ)
      (loginServer : Nat → Except AxiosErrM String) (fuel : Nat) (e le : AxiosErrM),
      reqServer 0 = .err e → e.status = some 401 → loginServer 0 = .error le →
      requestWithRetry reqServer loginServer (fuel + 1) 0 0 =
        some (.error "Authentication failed. Please check your API key.") := by
  intro ρ reqServer loginServer fuel e le hre hst hls
  simp [requestWithRetry, hre, hst, hls, handleAxiosError]

/-- Witness for C8 at a concrete 401 transport and failing login. -/
theorem interceptor_login_failure_original_error_witness :
    requestWithRetry (ρ := Unit)
      (fun _ => .err ⟨some 401, some "Unauthorized", "Request failed with status code 401", true⟩)
      (fun _ => .error ⟨none, none, "login endpoint down", false⟩) 1 0 0 =
      some (.error "Authentication failed. Please check your API key.") :=
  interceptor_login_failure_original_error Unit _ _ 0
    ⟨some 401, some "Unauthorized", "Request failed with status code 401", true⟩
    ⟨none, none, "login endpoint down", false⟩ rfl rfl rfl

/-- Claim C2 (failing input): on a transport where every issue of the
request returns HTTP 401 and every re-login succeeds, the interceptor keeps
re-logging-in and re-issuing the request and never produces a result, for
any bound on the number of iterations — the second consecutive 401 does NOT
surface as an authentication error after a single retry. -/
theorem interceptor_persistent401_unbounded :
    ∀ fuel attempt logins : Nat,
      requestWithRetry (persistent401 Unit) loginAlwaysOk fuel attempt logins = none := by
  intro fuel
  induction fuel with
  | zero => intro attempt logins; rfl
  | succ n ih =>
    intro attempt logins
    simp [requestWithRetry, persistent401, loginAlwaysOk, handleAxiosError, ih]

/-- Claim C3: on a successful summaries POST response (the batch-keyed
object, carrying no `errmsg` field), `getSummary` takes the first keyed
entry's value as the raw per-metric map and projects each metric entry
`{step, value, min:{index,data}, max:{index,data}}` into
`{step, value, min:{step,value}, max:{step,value}}`, returning one summary
entry per tracked metric. -/
theorem getSummary_first_entry_projection :
    ∀ (k0 : String) (raw : List (String × RawSummaryItem))
      (rest : List (String × List (String × RawSummaryItem))),
      ((k0, raw) :: rest).lookup "errmsg" = none →
      getSummaryFromBody ((k0, raw) :: rest) =
        .ok (raw.map (fun kv => (kv.1, projectSummaryItem kv.2))) ∧
      (raw.map (fun kv => (kv.1, projectSummaryItem kv.2))).length = raw.length ∧
      ∀ kv ∈ raw, (kv.1, projectSummaryItem kv.2) ∈
        raw.map (fun kv => (kv.1, projectSummaryItem kv.2)) := by
  intro k0 raw rest h
  refine ⟨?_, List.length_map raw _, ?_⟩
  · have h2 : (((k0, raw) :: rest).lookup "errmsg").isSome = false := by
      rw [h]; rfl
    simp [getSummaryFromBody, h2]
  · intro kv hkv
    exact List.mem_map_of_mem _ hkv

/-- Witness for C3 at a concrete one-batch, one-metric response body. -/
theorem getSummary_first_entry_projection_witness :
    getSummaryFromBody [("batch1", [("loss", ⟨3, 1 / 2, some ⟨0, 1 / 4⟩, none⟩)])] =
      .ok [("loss", projectSummaryItem ⟨3, 1 / 2, some ⟨0, 1 / 4⟩, none⟩)] :=
  (getSummary_first_entry_projection "batch1" [("loss", ⟨3, 1 / 2, some ⟨0, 1 / 4⟩, none⟩)] []
    (by decide)).1

/-- Elements produced by `dedupFirstAux` come from the input list. -/
theorem mem_of_mem_dedupFirstAux :
    ∀ (l seen : List String) (x : String), x ∈ dedupFirstAux seen l → x ∈ l := by
  intro l
  induction l with
  | nil => intro seen x h; simp [dedupFirstAux] at h
  | cons a l ih =>
    intro seen x h
    rw [dedupFirstAux] at h
    by_cases ha : a ∈ seen
    · rw [if_pos ha] at h
      exact List.mem_cons_of_mem a (ih seen x h)
    · rw [if_neg ha] at h
      rcases List.mem_cons.mp h with h1 | h2
      · exact h1 ▸ List.mem_cons_self a l
      · exact List.mem_cons_of_mem a (ih (a :: seen) x h2)

/-- Elements produced by `dedupFirstAux` were not yet seen. -/
theorem not_mem_seen_of_mem_dedupFirstAux :
    ∀ (l seen : List String) (x : String), x ∈ dedupFirstAux seen l → x ∉ seen := by
  intro l
  induction l with
  | nil => intro seen x h; simp [dedupFirstAux] at h
  | cons a l ih =>
    intro seen x h
    rw [dedupFirstAux] at h
    by_cases ha : a ∈ seen
    · rw [if_pos ha] at h
      exact ih seen x h
    · rw [if_neg ha] at h
      rcases List.mem_cons.mp h with h1 | h2
      · exact h1 ▸ ha
      · intro hx
        exact ih (a :: seen) x h2 (List.mem_cons_of_mem a hx)

/-- `dedupFirstAux` has no duplicates. -/
theorem nodup_dedupFirstAux : ∀ (l seen : List String), (dedupFirstAux seen l).Nodup := by
  intro l
  induction l with
  | nil => intro seen; simp [dedupFirstAux]
  | cons a l ih =>
    intro seen
    rw [dedupFirstAux]
    by_cases ha : a ∈ seen
    · rw [if_pos ha]; exact ih seen
    · rw [if_neg ha]
      refine List.nodup_cons.mpr ⟨?_, ih (a :: seen)⟩
      intro hmem
      exact not_mem_seen_of_mem_dedupFirstAux l (a :: seen) a hmem (List.mem_cons_self a seen)

/-- Appending an element already present in the list or already seen does
not change the deduplication. -/
theorem dedupFirstAux_append_mem :
    ∀ (l seen : List String) (k : String), k ∈ l ∨ k ∈ seen →
      dedupFirstAux seen (l ++ [k]) = dedupFirstAux seen l := by
  intro l
  induction l with
  | nil =>
    intro seen k hk
    have hks : k ∈ seen := by
      rcases hk with h | h
      · exact absurd h (List.not_mem_nil k)
      · exact h
    simp [dedupFirstAux, hks]
  | cons a l ih =>
    intro seen k hk
    rw [List.cons_append, dedupFirstAux, dedupFirstAux]
    by_cases ha : a ∈ seen
    · rw [if_pos ha, if_pos ha]
      refine ih seen k ?_
      rcases hk with h | h
      · rcases List.mem_cons.mp h with h1 | h2
        · exact Or.inr (h1 ▸ ha)
        · exact Or.inl h2
      · exact Or.inr h
    · rw [if_neg ha, if_neg ha]
      congr 1
      refine ih (a :: seen) k ?_
      rcases hk with h | h
      · rcases List.mem_cons.mp h with h1 | h2
        · exact Or.inr (h1 ▸ List.mem_cons_self a seen)
        · exact Or.inl h2
      · exact Or.inr (List.mem_cons_of_mem a h)

/-- On a duplicate-free input disjoint from `seen`, `dedupFirstAux` is the
identity. -/
theorem dedupFirstAux_eq_self :
    ∀ (l seen : List String), l.Nodup → (∀ x ∈ l, x ∉ seen) →
      dedupFirstAux seen l = l := by
  intro l
  induction l with
  | nil => intro seen _ _; rfl
  | cons a l ih =>
    intro seen hnd hdis
    rw [dedupFirstAux, if_neg (hdis a (List.mem_cons_self a l))]
    congr 1
    refine ih (a :: seen) (List.nodup_cons.mp hnd).2 ?_
    intro x hx hxs
    rcases List.mem_cons.mp hxs with h1 | h2
    · exact (List.nodup_cons.mp hnd).1 (h1 ▸ hx)
    · exact hdis x (List.mem_cons_of_mem a hx) h2

/-- Claim C4: for every requested key set, the result mapping of
`getMetrics` contains exactly the (deduplicated) keys whose per-key
processing succeeded, paired with their parsed rows; keys whose
export-descriptor fetch, CSV fetch, or CSV parse fails are simply absent —
the function returns a mapping, raising nothing for the failing key. -/
theorem getMetrics_key_isolation :
    ∀ (server : String → KeyServer) (keys : KeysArg) (k : String) (rows : List Row),
      (k, rows) ∈ getMetrics server keys ↔
        k ∈ dedupFirst (toKeysArray keys) ∧ processKey (server k) = some rows := by
  intro server keys k rows
  unfold getMetrics
  rw [List.mem_filterMap]
  constructor
  · rintro ⟨x, hx, hfx⟩
    match hpk : processKey (server x) with
    | none => rw [hpk] at hfx; simp at hfx
    | some r =>
      rw [hpk] at hfx
      simp only [Option.map_some', Option.some.injEq, Prod.mk.injEq] at hfx
      obtain ⟨hxk, hr⟩ := hfx
      subst hxk
      subst hr
      exact ⟨hx, hpk⟩
  · rintro ⟨hk, hpk⟩
    exact ⟨k, hk, by rw [hpk]; rfl⟩

/-- Witness for C4: three requested keys of which `"b"` fails; the key
`"a"` is present with its parsed rows. -/
theorem getMetrics_key_isolation_witness :
    ("a", [[("step", CellVal.num (.fin 1)), ("loss", CellVal.num (.fin 2))]]) ∈
      getMetrics sampleMetricsServer (.many ["a", "b", "c"]) :=
  (getMetrics_key_isolation sampleMetricsServer (.many ["a", "b", "c"]) "a"
    [[("step", CellVal.num (.fin 1)), ("loss", CellVal.num (.fin 2))]]).mpr
    ⟨by decide, by decide⟩

/-- Claim C10: passing a bare string key behaves exactly like the
one-element array; duplicated keys cause no extra fetches and no extra
result entries — the processed key list is duplicate-free, appending an
already-present key changes nothing, and deduplicating the input by hand
changes nothing. -/
theorem getMetrics_key_normalization :
    (∀ (server : String → KeyServer) (k : String),
      getMetrics server (.one k) = getMetrics server (.many [k])) ∧
    (∀ l : List String, (dedupFirst l).Nodup) ∧
    (∀ (server : String → KeyServer) (l : List String) (k : String), k ∈ l →
      getMetrics server (.many (l ++ [k])) = getMetrics server (.many l)) ∧
    (∀ (server : String → KeyServer) (l : List String),
      getMetrics server (.many (dedupFirst l)) = getMetrics server (.many l)) := by
  refine ⟨fun server k => rfl, fun l => nodup_dedupFirstAux l [], ?_, ?_⟩
  · intro server l k hk
    unfold getMetrics toKeysArray dedupFirst
    rw [dedupFirstAux_append_mem l [] k (Or.inl hk)]
  · intro server l
    unfold getMetrics toKeysArray dedupFirst
    rw [dedupFirstAux_eq_self (dedupFirstAux [] l) [] (nodup_dedupFirstAux l [])
      (fun x _ hx => (List.not_mem_nil x) hx)]

/-- Witness for C10: appending the duplicate key `"a"` leaves the result
unchanged. -/
theorem getMetrics_key_normalization_witness :
    getMetrics sampleMetricsServer (.many (["a", "c"] ++ ["a"])) =
      getMetrics sampleMetricsServer (.many ["a", "c"]) :=
  getMetrics_key_normalization.2.2.1 sampleMetricsServer ["a", "c"] "a" (by decide)

/-- Assigning a property makes it present with the assigned value. -/
theorem jset_lookup_self :
    ∀ (row : Row) (k : String) (v : CellVal), (jset row k v).lookup k = some v := by
  intro row k v
  induction row with
  | nil => simp [jset, List.lookup]
  | cons p rest ih =>
    obtain ⟨k0, v0⟩ := p
    by_cases h : k0 = k
    · subst h
      simp [jset, List.lookup]
    · rw [jset, if_neg h, List.lookup]
      have : (k == k0) = false := by
        simp [Ne.symm h]
      rw [this]
      exact ih

/-- Assigning a property leaves the other properties unchanged. -/
theorem jset_lookup_ne :
    ∀ (row : Row) (k : String) (v : CellVal) (k' : String), k' ≠ k →
      (jset row k v).lookup k' = row.lookup k' := by
  intro row k v k' hne
  have h1 : (k' == k) = false := beq_eq_false_iff_ne.mpr hne
  induction row with
  | nil =>
    simp [jset, List.lookup, h1]
  | cons p rest ih =>
    obtain ⟨k0, v0⟩ := p
    rw [jset]
    by_cases h : k0 = k
    · rw [if_pos h]
      have h2 : (k' == k0) = false := beq_eq_false_iff_ne.mpr (fun hk => hne (hk.trans h))
      simp [List.lookup, h1, h2]
    · rw [if_neg h]
      by_cases h2 : k' = k0
      · subst h2
        simp [List.lookup]
      · have h3 : (k' == k0) = false := beq_eq_false_iff_ne.mpr h2
        simp [List.lookup, h3, ih]

/-- Every property of `jset row k v` is the new binding or an old one. -/
theorem mem_jset :
    ∀ (row : Row) (k : String) (v : CellVal) (p : String × CellVal),
      p ∈ jset row k v → p = (k, v) ∨ p ∈ row := by
  intro row k v p
  induction row with
  | nil => intro h; simp [jset] at h; exact Or.inl h
  | cons q rest ih =>
    obtain ⟨k0, v0⟩ := q
    intro h
    rw [jset] at h
    by_cases hk : k0 = k
    · rw [if_pos hk] at h
      rcases List.mem_cons.mp h with h1 | h2
      · exact Or.inl h1
      · exact Or.inr (List.mem_cons_of_mem _ h2)
    · rw [if_neg hk] at h
      rcases List.mem_cons.mp h with h1 | h2
      · exact Or.inr (h1 ▸ List.mem_cons_self _ _)
      · rcases ih h2 with h3 | h4
        · exact Or.inl h3
        · exact Or.inr (List.mem_cons_of_mem _ h4)

/-- A successful association-list lookup exhibits a member. -/
theorem mem_of_lookup_eq_some :
    ∀ (row : Row) (k : String) (v : CellVal), row.lookup k = some v → (k, v) ∈ row := by
  intro row k v
  induction row with
  | nil => intro h; simp [List.lookup] at h
  | cons p rest ih =>
    obtain ⟨k0, v0⟩ := p
    intro h
    rw [List.lookup] at h
    by_cases hk : k = k0
    · subst hk
      simp only [beq_self_eq_true] at h
      injection h with h'
      rw [← h']
      exact List.mem_cons_self _ _
    · have : (k == k0) = false := beq_eq_false_iff_ne.mpr hk
      rw [this] at h
      exact List.mem_cons_of_mem _ (ih h)

/-- The coercion of a present cell never produces the `undefined` value. -/
theorem coerceCell_some_ne_undef : ∀ s : String, coerceCell (some s) ≠ CellVal.undef := by
  intro s
  by_cases hc : s = "" ∨ s = "null" ∨ s = "undefined"
  · simp [coerceCell, hc]
  · cases hjs : jsNumber s <;> simp [coerceCell, hc, hjs]

/-- The row-builder loop binds every processed header (and keeps every
binding already present). -/
theorem mkRowAux_lookup_isSome :
    ∀ (hs cells : List String) (j : Nat) (row : Row) (h : String),
      h ∈ hs ∨ (row.lookup h).isSome →
      ((mkRowAux cells hs j row).lookup h).isSome := by
  intro hs
  induction hs with
  | nil =>
    intro cells j row h hh
    rcases hh with h1 | h2
    · exact absurd h1 (List.not_mem_nil h)
    · exact h2
  | cons h0 hs ih =>
    intro cells j row h hh
    rw [mkRowAux]
    by_cases he : h = h0
    · subst he
      refine ih cells (j + 1) _ h (Or.inr ?_)
      rw [jset_lookup_self]
      rfl
    · rcases hh with h1 | h2
      · rcases List.mem_cons.mp h1 with h3 | h4
        · exact absurd h3 he
        · exact ih cells (j + 1) _ h (Or.inl h4)
      · refine ih cells (j + 1) _ h (Or.inr ?_)
        rw [jset_lookup_ne _ _ _ _ he]
        exact h2

/-- When every remaining header index has a cell, the row-builder loop
never stores the `undefined` value. -/
theorem mkRowAux_no_undef :
    ∀ (hs cells : List String) (j : Nat) (row : Row),
      (∀ p ∈ row, p.2 ≠ CellVal.undef) →
      (∀ i : Nat, j ≤ i → i < j + hs.length → i < cells.length) →
      ∀ p ∈ mkRowAux cells hs j row, p.2 ≠ CellVal.undef := by
  intro hs
  induction hs with
  | nil => intro cells j row hrow _ p hp; exact hrow p hp
  | cons h0 hs ih
  =>
    intro cells j row hrow hcells p hp
    rw [mkRowAux] at hp
    refine ih cells (j + 1) _ ?_ ?_ p hp
    · intro q hq
      rcases mem_jset _ _ _ q hq with h1 | h2
      · subst h1
        have hj : j < cells.length := by
          refine hcells j (Nat.le_refl j) ?_
          simp
        have : ∃ c, cells.get? j = some c := by
          cases hc : cells.get? j with
          | none =>
            have := List.get?_eq_none.mp hc
            omega
          | some c => exact ⟨c, rfl⟩
        obtain ⟨c, hc⟩ := this
        rw [hc]
        exact coerceCell_some_ne_undef c
      · exact hrow q h2
    · intro i hi1 hi2
      refine hcells i (by omega) (by simp at hi2 ⊢; omega)

/-- Claim C9 (counterexample): the CSV payload `"a,b\n1"` has a data line
with fewer cells than header columns; the parsed row maps header `"b"` to
the JS `undefined` value, which is not a number, null, or a string. -/
theorem csv_short_line_undefined_cex :
    parseCsvText "a,b\n1" = some [[("a", CellVal.num (.fin 1)), ("b", CellVal.undef)]] ∧
    (List.lookup "b" [("a", CellVal.num (.fin 1)), ("b", CellVal.undef)]) =
      some CellVal.undef := by
  constructor
  · rfl
  · rfl

/-- Claim C9 (amended): every returned row binds every header column name;
for data lines with at least as many cells as header columns, every such
value is a number, null, or a string; a shorter line leaves the headers
beyond its cell count bound to the JS `undefined` value instead. -/
theorem csv_row_header_values :
    ∀ (headers cells : List String) (h : String), h ∈ headers →
      ∃ v, (mkRow headers cells).lookup h = some v ∧
        (headers.length ≤ cells.length →
          v = CellVal.null ∨ (∃ q, v = CellVal.num q) ∨ (∃ s, v = CellVal.str s)) := by
  intro headers cells h hh
  have h1 : ((mkRow headers cells).lookup h).isSome :=
    mkRowAux_lookup_isSome headers cells 0 [] h (Or.inl hh)
  obtain ⟨v, hv⟩ := Option.isSome_iff_exists.mp h1
  refine ⟨v, hv, ?_⟩
  intro hlen
  have hmem : (h, v) ∈ mkRow headers cells := mem_of_lookup_eq_some _ _ _ hv
  have hne : v ≠ CellVal.undef := by
    have := mkRowAux_no_undef headers cells 0 [] (by intro p hp; simp at hp)
      (by intro i _ h2; omega) (h, v) hmem
    exact this
  cases v with
  | null => exact Or.inl rfl
  | num q => exact Or.inr (Or.inl ⟨q, rfl⟩)
  | str s => exact Or.inr (Or.inr ⟨s, rfl⟩)
  | undef => exact absurd rfl hne

/-- Witness for the amended C9 at the concrete headers and cells of the
counterexample payload. -/
theorem csv_row_header_values_witness :
    ∃ v, (mkRow ["a", "b"] ["1"]).lookup "b" = some v ∧
      ((["a", "b"] : List String).length ≤ (["1"] : List String).length →
        v = CellVal.null ∨ (∃ q, v = CellVal.num q) ∨ (∃ s, v = CellVal.str s)) :=
  csv_row_header_values ["a", "b"] ["1"] "b" (by decide)

/-- A `?? null` default never leaves `undefined`. -/
theorem orNull_ne_undef {α : Type} : ∀ x : JOpt α, x.orNull ≠ JOpt.undef := by
  intro x
  cases x <;> simp [JOpt.orNull]

/-- A `?? undefined` default never leaves `null`. -/
theorem orUndef_ne_null {α : Type} : ∀ x : JOpt α, x.orUndef ≠ JOpt.null := by
  intro x
  cases x <;> simp [JOpt.orUndef]

/-- Claim C7 (counterexample): on the concrete non-empty payload whose
`user.avatar` and `profile.requirements` are absent upstream,
`getExperiment` returns a record whose `user.avatar` and
`profile.requirements` fields hold the JS `undefined` value — the caller
does see `undefined`. -/
theorem getExperiment_avatar_undefined_cex :
    (getExperimentParse sampleRawExperiment).user.avatar = JOpt.undef ∧
    (getExperimentParse sampleRawExperiment).profile.requirements = JOpt.undef :=
  ⟨rfl, rfl⟩

/-- Claim C7 (amended): `getExperiment` populates every field with a
default when absent upstream, and no field of the returned record is
`undefined` EXCEPT the optional `user.avatar` and `profile.requirements`,
which are left as `undefined` when absent (their default is `?? undefined`);
in particular a payload missing `profile.conda` yields `conda: null` and a
payload missing `colors` yields `colors: []`.  (All remaining fields are
plain strings, booleans or lists by construction, hence never undefined;
`avatar` and `requirements` can be `undefined` but never `null`.) -/
theorem getExperiment_defaults :
    ∀ data : RawExperiment,
      (getExperimentParse data).finishedAt ≠ JOpt.undef ∧
      (getExperimentParse data).profile.conda ≠ JOpt.undef ∧
      (getExperimentParse data).cloneType ≠ JOpt.undef ∧
      (getExperimentParse data).rootExpId ≠ JOpt.undef ∧
      (getExperimentParse data).rootProId ≠ JOpt.undef ∧
      (getExperimentParse data).user.avatar ≠ JOpt.null ∧
      (getExperimentParse data).profile.requirements ≠ JOpt.null ∧
      (∀ p, data.profile = JOpt.val p → p.conda = JOpt.undef ∨ p.conda = JOpt.null →
        (getExperimentParse data).profile.conda = JOpt.null) ∧
      (data.profile = JOpt.undef ∨ data.profile = JOpt.null →
        (getExperimentParse data).profile.conda = JOpt.null) ∧
      (data.colors = JOpt.undef ∨ data.colors = JOpt.null →
        (getExperimentParse data).colors = []) := by
  intro data
  refine ⟨?_, ?_, ?_, ?_, ?_, ?_, ?_, ?_, ?_, ?_⟩
  · simp only [getExperimentParse]
    exact orNull_ne_undef _
  · cases hp : data.profile <;> simp [getExperimentParse, hp, orNull_ne_undef]
  · simp only [getExperimentParse]
    exact orNull_ne_undef _
  · simp only [getExperimentParse]
    exact orNull_ne_undef _
  · simp only [getExperimentParse]
    exact orNull_ne_undef _
  · cases hu : data.user <;> simp [getExperimentParse, hu, orUndef_ne_null]
  · cases hp : data.profile <;> simp [getExperimentParse, hp, orUndef_ne_null]
  · intro p hp hc
    rcases hc with h | h <;> simp [getExperimentParse, hp, h, JOpt.orNull]
  · intro hp
    rcases hp with h | h <;> simp [getExperimentParse, h]
  · intro hc
    rcases hc with h | h <;> simp [getExperimentParse, h, jsArrayOr]

/-- Witness for the amended C7 at the concrete payload: the missing
`profile.conda` yields null and the missing `colors` yields the empty
list. -/
theorem getExperiment_defaults_witness :
    (getExperimentParse sampleRawExperiment).profile.conda = JOpt.null ∧
    (getExperimentParse sampleRawExperiment).colors = [] :=
  ⟨(getExperiment_defaults sampleRawExperiment).2.2.2.2.2.2.2.1
      ⟨.undef, .undef, .undef, .undef⟩ rfl (Or.inl rfl),
   (getExperiment_defaults sampleRawExperiment).2.2.2.2.2.2.2.2.2 (Or.inl rfl)⟩

/-- Against an honest chunked server, the pagination loop started at any
page with the matching prefix already accumulated finishes with the whole
collection and stops exactly at page `⌈total/10⌉`. -/
theorem paginateLoop_chunk {α β : Type} (l : List α) (g : α → β) :
    ∀ fuel page : Nat, 1 ≤ page → (page - 1) * 10 < l.length →
      l.length ≤ (page - 1 + fuel) * 10 →
      paginateLoop (chunkServer l) g fuel page ((l.take ((page - 1) * 10)).map g) =
        some (l.map g, (l.length + 9) / 10) := by
  intro fuel
  induction fuel with
  | zero =>
    intro page h1 h2 h3
    exfalso
    omega
  | succ n ih =>
    intro page h1 h2 h3
    rw [paginateLoop]
    simp only [chunkServer]
    have hacc : (l.take ((page - 1) * 10)).map g ++ ((l.drop ((page - 1) * 10)).take 10).map g
        = (l.take (page * 10)).map g := by
      rw [← List.map_append, ← List.take_add]
      have h10 : (page - 1) * 10 + 10 = page * 10 := by omega
      rw [h10]
    by_cases hstop : l.length ≤ page * 10
    · have hlen : ((l.take ((page - 1) * 10)).map g ++
          ((l.drop ((page - 1) * 10)).take 10).map g).length = l.length := by
        rw [hacc, List.length_map, List.length_take]
        omega
      rw [if_pos (Or.inr (le_of_eq hlen.symm))]
      have htake : l.take (page * 10) = l := List.take_of_length_le hstop
      have hpage : page = (l.length + 9) / 10 := by omega
      rw [hacc, htake, ← hpage]
    · rw [if_neg ?hc]
      case hc =>
        simp only [List.length_append, List.length_map, List.length_take, List.length_drop,
          not_or]
        omega
      rw [hacc]
      exact ih (page + 1) (by omega) (by omega) (by omega)

/-- The pagination loop started at page 1 with an empty accumulator returns
exactly the whole collection, stopping after `max 1 ⌈total/10⌉` pages. -/
theorem paginate_chunk_total {α β : Type} (l : List α) (g : α → β) (fuel : Nat)
    (hfuel : l.length ≤ fuel * 10) (h1 : 1 ≤ fuel) :
    paginateLoop (chunkServer l) g fuel 1 [] =
      some (l.map g, max 1 ((l.length + 9) / 10)) := by
  rcases Nat.eq_zero_or_pos l.length with h0 | hpos
  · have hl : l = [] := List.length_eq_zero.mp h0
    subst hl
    obtain ⟨n, rfl⟩ : ∃ n, fuel = n + 1 := ⟨fuel - 1, by omega⟩
    rw [paginateLoop]
    simp [chunkServer]
  · have hmain := paginateLoop_chunk l g fuel 1 (le_refl 1) (by omega) (by omega)
    have hz : ((1 : Nat) - 1) * 10 = 0 := by omega
    rw [hz, List.take_zero, List.map_nil] at hmain
    rw [hmain]
    have hmax : max 1 ((l.length + 9) / 10) = (l.length + 9) / 10 := by omega
    rw [hmax]

/-- Claim C1: against a server that pages a fixed collection with page size
10 starting at page 1 and reports the collection's length as `total`,
`listProjects` and `listExperiments` return exactly `total` items in page
order (the whole collection, per-item parsed for projects), and stop
requesting as soon as a page comes back empty or the accumulated count
reaches `total`: the last page requested is `max 1 ⌈total/10⌉`. -/
theorem listPaged_pagination_complete :
    ∀ {α : Type} (rawProjects : List RawProjectItem) (exps : List α) (fuel : Nat),
      rawProjects.length ≤ fuel * 10 → exps.length ≤ fuel * 10 → 1 ≤ fuel →
      (listProjects (chunkServer rawProjects) fuel =
          some (rawProjects.map parseProject, max 1 ((rawProjects.length + 9) / 10)) ∧
        (rawProjects.map parseProject).length = (chunkServer rawProjects 1).total) ∧
      (listExperiments (chunkServer exps) fuel =
          some (exps, max 1 ((exps.length + 9) / 10)) ∧
        exps.length = (chunkServer exps 1).total) := by
  intro α rawProjects exps fuel hp he h1
  refine ⟨⟨?_, ?_⟩, ?_, ?_⟩
  · exact paginate_chunk_total rawProjects parseProject fuel hp h1
  · rw [List.length_map]
    rfl
  · have hmain := paginate_chunk_total exps id fuel he h1
    rw [List.map_id] at hmain
    exact hmain
  · rfl

/-- Witness for C1: one project and three experiment entries, one page
each. -/
theorem listPaged_pagination_complete_witness :
    (listProjects (chunkServer [emptyRawProjectItem]) 1 =
        some ([parseProject emptyRawProjectItem], 1) ∧
      ([emptyRawProjectItem].map parseProject).length =
        (chunkServer [emptyRawProjectItem] 1).total) ∧
    (listExperiments (chunkServer ([0, 1, 2] : List Nat)) 1 = some ([0, 1, 2], 1) ∧
      ([0, 1, 2] : List Nat).length = (chunkServer ([0, 1, 2] : List Nat) 1).total) :=
  listPaged_pagination_complete [emptyRawProjectItem] [0, 1, 2] 1
    (by decide) (by decide) (by decide)

end SwanLab
